import Mathlib

/-!
# Kompute: `kp::Tensor`, `kp::TensorT<T>` and `kp::Manager`

A shallow embedding of the inline code of `kompute/Tensor.hpp` and of the
registry declared in `kompute/Manager.hpp`, followed by the properties proved
about it.

Conventions.

* `uint32_t` values are natural numbers; arithmetic on them is reduced modulo
  `2 ^ 32` where the C++ expression has type `uint32_t`.
* `std::shared_ptr<X>` is `Option Nat`: `none` is `nullptr`, `some h` owns the
  object with handle `h`.
* `void*` is a symbolic pointer (`VoidPtr`): the host mapping it was derived
  from plus a signed byte displacement.
* Host-visible memory is a byte store indexed by device-memory handle and byte
  offset (`World.bytes`).
* A call either returns, throws, or has undefined behaviour (`Outcome`); the
  state reached is kept in the first two cases.
* An element type `T` is given by `sizeof(T)`; a value of type `T` is its
  object representation, `sizeof(T)` bytes (`Elem`).
-/

namespace kp

/-! ## Data model -/

/-- One byte of host memory. -/
abbrev Byte := Fin 256

/-- Number of values of a `uint32_t`. -/
def uint32Mod : Nat := 4294967296

/-- The enum `Tensor::TensorTypes`. -/
inductive TensorTypes where
  | eDevice
  | eHost
  | eStorage
deriving DecidableEq, Repr

/-- The enum `Tensor::TensorDataTypes`. -/
inductive TensorDataTypes where
  | eBool
  | eInt
  | eUnsignedInt
  | eFloat
  | eDouble
deriving DecidableEq, Repr

/-- A host mapping of a range of a device-memory object: the arguments
`(memory, offset, size)` of one `vk::Device::mapMemory` call. -/
structure Mapping where
  memory : Nat
  offset : Nat
  size : Nat
deriving DecidableEq, Repr

/-- A `void*`: the mapping the pointer was derived from (`none` for a pointer
that does not point into any mapping, such as `nullptr`) and the byte
displacement from the start of that mapping. -/
structure VoidPtr where
  region : Option Mapping
  disp : Int
deriving DecidableEq, Repr

/-- The null pointer. -/
def nullptr : VoidPtr := ⟨none, 0⟩

/-- Pointer arithmetic in bytes. -/
def VoidPtr.add (p : VoidPtr) (bytes : Int) : VoidPtr :=
  { p with disp := p.disp + bytes }

/-- Whether the `n` bytes starting at `p` lie inside the mapping `p` was
derived from. Accessing bytes for which this is false is undefined
behaviour. -/
def VoidPtr.valid (p : VoidPtr) (n : Nat) : Bool :=
  match p.region with
  | none => false
  | some m => decide (0 ≤ p.disp ∧ p.disp + (n : Int) ≤ (m.size : Int))

/-- Everything outside the tensor object that its inline methods touch: the
mappings established so far through `vk::Device::mapMemory` (device handle and
mapped range, oldest first) and the contents of host-visible device memory. -/
structure World where
  mapped : List (Nat × Mapping)
  bytes : Nat → Nat → Byte

/-- The byte `k` positions after `p`. -/
def World.peek (w : World) (p : VoidPtr) (k : Nat) : Byte :=
  match p.region with
  | none => 0
  | some m => w.bytes m.memory (m.offset + p.disp.toNat + k)

/-- Store the first `n` bytes of `src` at `p`. -/
def World.poke (w : World) (p : VoidPtr) (src : List Byte) (n : Nat) : World :=
  match p.region with
  | none => w
  | some m =>
    { w with
      bytes := fun mem off =>
        if mem = m.memory ∧ m.offset + p.disp.toNat ≤ off ∧
            off < m.offset + p.disp.toNat + n then
          src.getD (off - (m.offset + p.disp.toNat)) 0
        else w.bytes mem off }

/-- The `n` bytes starting at `p`. -/
def World.readBytes (w : World) (p : VoidPtr) (n : Nat) : List Byte :=
  (List.range n).map (w.peek p)

/-- The C library `memcpy(dst, src, n)`, where `src` is given by the bytes
readable at the source address. Undefined (`none`) when the destination range
is not inside a mapping or the source has fewer than `n` bytes. -/
def memcpy (w : World) (dst : VoidPtr) (src : List Byte) (n : Nat) : Option World :=
  if dst.valid n = true ∧ n ≤ src.length then some (w.poke dst src n) else none

/-- The Vulkan call `vk::Device::mapMemory(memory, offset, size, flags)` on
device `device`, taken to succeed: it records the mapping and returns a
pointer to its first byte. -/
def mapMemory (w : World) (device memory offset size : Nat) : VoidPtr × World :=
  (⟨some ⟨memory, offset, size⟩, 0⟩,
   { w with mapped := w.mapped ++ [(device, ⟨memory, offset, size⟩)] })

/-- A value of an element type `T` with `sizeof(T) = sizeofT`: its object
representation. -/
structure Elem (sizeofT : Nat) where
  bytes : List Byte
  size_eq : bytes.length = sizeofT
deriving DecidableEq, Repr

/-- The object of type `T` stored at `p`. -/
def World.load (w : World) (p : VoidPtr) (sizeofT : Nat) : Elem sizeofT :=
  ⟨w.readBytes p sizeofT, by simp [World.readBytes]⟩

/-- The bytes of the contiguous storage `data.data()` of a `std::vector<T>`. -/
def vectorBytes {sizeofT : Nat} (data : List (Elem sizeofT)) : List Byte :=
  (data.map Elem.bytes).flatten

/-- The data members of `kp::Tensor`. -/
structure Tensor where
  mTensorType : TensorTypes
  mDataType : TensorDataTypes
  mSize : Nat
  mDataTypeMemorySize : Nat
  mRawData : VoidPtr
  mPhysicalDevice : Option Nat
  mDevice : Option Nat
  mPrimaryBuffer : Option Nat
  mFreePrimaryBuffer : Bool
  mStagingBuffer : Option Nat
  mFreeStagingBuffer : Bool
  mPrimaryMemory : Option Nat
  mFreePrimaryMemory : Bool
  mStagingMemory : Option Nat
  mFreeStagingMemory : Bool
deriving DecidableEq, Repr

/-- The two `uint32_t` members hold `uint32_t` values. -/
def Tensor.Uint32Fields (t : Tensor) : Prop :=
  t.mSize < uint32Mod ∧ t.mDataTypeMemorySize < uint32Mod

instance (t : Tensor) : Decidable t.Uint32Fields := by
  unfold Tensor.Uint32Fields; infer_instance

/-- The state a member function of a tensor runs in: the tensor object
(`*this`) and the world around it. -/
structure State where
  self : Tensor
  world : World

/-- How a call ends: it returns in state `s`, it throws
`std::runtime_error(what)` in state `s`, or its behaviour is undefined. -/
inductive Outcome (σ : Type) where
  | returned (s : σ)
  | thrown (what : String) (s : σ)
  | undefined

/-! ## `kp::Tensor` -/

/-- Member `Tensor::size()`. -/
def Tensor.size (t : Tensor) : Nat := t.mSize

/-- Member `Tensor::dataTypeMemorySize()`. -/
def Tensor.dataTypeMemorySize (t : Tensor) : Nat := t.mDataTypeMemorySize

/-- Member `Tensor::memorySize()`: a `uint32_t` product. -/
def Tensor.memorySize (t : Tensor) : Nat :=
  (t.mSize * t.mDataTypeMemorySize) % uint32Mod

/-- Member `Tensor::dataType()`. -/
def Tensor.dataType (t : Tensor) : TensorDataTypes := t.mDataType

/-- Member `Tensor::rawData()`. -/
def Tensor.rawData (t : Tensor) : VoidPtr := t.mRawData

/-- Member template `Tensor::vector<T>()`: the `std::vector<T>` built from the
iterator range `[(T*)mRawData, (T*)mRawData + size())`. Undefined (`none`) when
that range is not inside the mapping behind `mRawData`. -/
def Tensor.vector (sizeofT : Nat) (t : Tensor) (w : World) : Option (List (Elem sizeofT)) :=
  if t.mRawData.valid (t.size * sizeofT) = true then
    some ((List.range t.size).map fun (i : Nat) =>
      w.load (t.mRawData.add ((i : Int) * (sizeofT : Int))) sizeofT)
  else none

/-- Member `Tensor::setRawData(data)`:
`memcpy(this->mRawData, data, this->memorySize())`. -/
def Tensor.setRawData (s : State) (data : List Byte) : Outcome State :=
  match memcpy s.world s.self.mRawData data s.self.memorySize with
  | some w => .returned { s with world := w }
  | none => .undefined

/-- Member `Tensor::rawMapData()`. The local `hostVisibleMemory` is chosen by
the tier; for a tier that is neither `eHost` nor `eDevice` the function logs a
warning and returns before anything else happens. Dereferencing a null
`mDevice` or a null `hostVisibleMemory` is undefined. -/
def Tensor.rawMapData (s : State) : Outcome State :=
  let selected : Option (Option Nat) :=
    if s.self.mTensorType = TensorTypes.eHost then some s.self.mPrimaryMemory
    else if s.self.mTensorType = TensorTypes.eDevice then some s.self.mStagingMemory
    else none
  match selected with
  | none => .returned s
  | some hostVisibleMemory =>
    let bufferSize := s.self.memorySize
    match s.self.mDevice, hostVisibleMemory with
    | some device, some memory =>
      let r := mapMemory s.world device memory 0 bufferSize
      .returned { self := { s.self with mRawData := r.1 }, world := r.2 }
    | _, _ => .undefined

/-! ## `kp::TensorT<T>` -/

/-- Member `TensorT<T>::data()`. -/
def TensorT.data (t : Tensor) : VoidPtr := t.mRawData

/-- Member `TensorT<T>::vector()`: the same iterator-range construction as
`Tensor::vector<T>()`. -/
def TensorT.vector (sizeofT : Nat) (t : Tensor) (w : World) : Option (List (Elem sizeofT)) :=
  if t.mRawData.valid (t.size * sizeofT) = true then
    some ((List.range t.size).map fun (i : Nat) =>
      w.load (t.mRawData.add ((i : Int) * (sizeofT : Int))) sizeofT)
  else none

/-- Member `TensorT<T>::operator[](int index)`: the location
`((T*)mRawData) + index` the returned reference is bound to. -/
def TensorT.operatorIndex (sizeofT : Nat) (t : Tensor) (index : Int) : VoidPtr :=
  t.mRawData.add (index * (sizeofT : Int))

/-- The message of the exception thrown by `TensorT<T>::setData`. -/
def sizeMismatch : String := "Kompute TensorT Cannot set data of different sizes"

/-- Member `TensorT<T>::setData(data)`. -/
def TensorT.setData {sizeofT : Nat} (s : State) (data : List (Elem sizeofT)) : Outcome State :=
  if data.length ≠ s.self.mSize then
    .thrown sizeMismatch s
  else
    Tensor.setRawData s (vectorBytes data)

/-! ## `kp::Manager` -/

/-- A `std::weak_ptr<X>`: a non-owning observation of the shared object with
handle `object`. -/
structure WeakPtr where
  object : Nat
deriving DecidableEq, Repr

/-- For every shared object, the number of `std::shared_ptr` handles that
currently own it (its `use_count()`). -/
abbrev Owners := Nat → Nat

/-- Member `std::weak_ptr<X>::expired()`: no owning handle remains. -/
def WeakPtr.expired (owners : Owners) (p : WeakPtr) : Bool :=
  owners p.object == 0

/-- All owning handles of the object `object` are released. -/
def releaseAll (owners : Owners) (object : Nat) : Owners :=
  fun o => if o = object then 0 else owners o

/-- The data members of `kp::Manager`. -/
structure Manager where
  mInstance : Option Nat
  mFreeInstance : Bool
  mPhysicalDevice : Option Nat
  mDevice : Option Nat
  mFreeDevice : Bool
  mManagedTensors : List WeakPtr
  mManagedSequences : List WeakPtr
  mManagedAlgorithms : List WeakPtr
  mComputeQueueFamilyIndices : List Nat
  mComputeQueues : List (Option Nat)
  mManageResources : Bool
deriving DecidableEq, Repr

/-- Modelled from the spec: the body of `Manager::clear()`, which
`Manager.hpp` only declares. Following the specification, for each
observation list it drops the entries whose observation has expired and keeps
the others; it changes nothing else. -/
def Manager.clear (owners : Owners) (m : Manager) : Manager :=
  { m with
    mManagedTensors := m.mManagedTensors.filter fun p => !p.expired owners
    mManagedSequences := m.mManagedSequences.filter fun p => !p.expired owners
    mManagedAlgorithms := m.mManagedAlgorithms.filter fun p => !p.expired owners }

/-- The three categories of resources the registry tracks. -/
inductive Category where
  | tensors
  | sequences
  | algorithms
deriving DecidableEq, Repr

/-- The observation list of a category: `mManagedTensors`,
`mManagedSequences` or `mManagedAlgorithms`. -/
def Manager.managed (m : Manager) (c : Category) : List WeakPtr :=
  match c with
  | Category.tensors => m.mManagedTensors
  | Category.sequences => m.mManagedSequences
  | Category.algorithms => m.mManagedAlgorithms

/-! ## Sample states -/

/-- Host memory holding zero everywhere, with nothing mapped. -/
def zeroWorld : World := ⟨[], fun _ _ => 0⟩

/-- A tensor of tier `tier` with `count` elements of `width` bytes and raw
pointer `raw`, on device 1, with primary pair (20, 30) and staging pair
(21, 31). -/
def sampleTensor (tier : TensorTypes) (count width : Nat) (raw : VoidPtr) : Tensor :=
  { mTensorType := tier
    mDataType := TensorDataTypes.eFloat
    mSize := count
    mDataTypeMemorySize := width
    mRawData := raw
    mPhysicalDevice := some 0
    mDevice := some 1
    mPrimaryBuffer := some 20
    mFreePrimaryBuffer := true
    mStagingBuffer := some 21
    mFreeStagingBuffer := true
    mPrimaryMemory := some 30
    mFreePrimaryMemory := true
    mStagingMemory := some 31
    mFreeStagingMemory := true }

/-- A pointer to the start of a mapping of the first `size` bytes of device
memory `memory`. -/
def mappedPtr (memory size : Nat) : VoidPtr := ⟨some ⟨memory, 0, size⟩, 0⟩

/-- The element of a 4-byte type whose bytes are all `b`. -/
def elem4 (b : Byte) : Elem 4 := ⟨[b, b, b, b], rfl⟩

/-- A registry on device 1 observing tensors 1, 2, 3, sequence 4 and
algorithms 5, 6. -/
def sampleManager : Manager :=
  { mInstance := some 0
    mFreeInstance := true
    mPhysicalDevice := some 0
    mDevice := some 1
    mFreeDevice := true
    mManagedTensors := [⟨1⟩, ⟨2⟩, ⟨3⟩]
    mManagedSequences := [⟨4⟩]
    mManagedAlgorithms := [⟨5⟩, ⟨6⟩]
    mComputeQueueFamilyIndices := [0]
    mComputeQueues := [some 7]
    mManageResources := true }

/-- Every object has exactly one owning handle. -/
def oneOwnerEach : Owners := fun _ => 1

/-! ## Properties -/

theorem memorySize_eq_mod (t : Tensor) :
    t.memorySize = (t.size * t.dataTypeMemorySize) % uint32Mod := rfl

/-- C5, as amended: when the product of the element count and the per-element
byte width is below `2 ^ 32`, `memorySize()` is exactly `size()` times
`dataTypeMemorySize()`. -/
theorem memorySize_eq_of_lt (t : Tensor)
    (h : t.size * t.dataTypeMemorySize < uint32Mod) :
    t.memorySize = t.size * t.dataTypeMemorySize := by
  unfold Tensor.memorySize Tensor.size Tensor.dataTypeMemorySize at *
  exact Nat.mod_eq_of_lt h

/-- Witness for C5 as amended: four elements of four bytes. -/
theorem memorySize_eq_of_lt_witness :
    (sampleTensor TensorTypes.eDevice 4 4 (mappedPtr 31 16)).memorySize = 16 :=
  memorySize_eq_of_lt (sampleTensor TensorTypes.eDevice 4 4 (mappedPtr 31 16)) (by decide)

/-- Counterexample to C5 as stated: a tensor of `2 ^ 30` elements of 4 bytes
(both `uint32_t` values) has `memorySize() = 0`, not `2 ^ 32`. -/
theorem memorySize_overflow_counterexample :
    (sampleTensor TensorTypes.eHost 1073741824 4 (mappedPtr 30 0)).Uint32Fields ∧
    (sampleTensor TensorTypes.eHost 1073741824 4 (mappedPtr 30 0)).memorySize = 0 ∧
    (sampleTensor TensorTypes.eHost 1073741824 4 (mappedPtr 30 0)).memorySize ≠
      (sampleTensor TensorTypes.eHost 1073741824 4 (mappedPtr 30 0)).size *
        (sampleTensor TensorTypes.eHost 1073741824 4 (mappedPtr 30 0)).dataTypeMemorySize := by
  decide

theorem setRawData_ne_thrown (s : State) (data : List Byte) (what : String) (s1 : State) :
    Tensor.setRawData s data ≠ Outcome.thrown what s1 := by
  unfold Tensor.setRawData
  cases memcpy s.world s.self.mRawData data s.self.memorySize <;> simp

/-- C1: `setData` throws the size-mismatch error exactly when the length of the
input differs from the element count of the tensor, and it throws nothing
else; when the lengths are equal it does not throw and it is exactly
`setRawData` applied to the bytes of the input. -/
theorem setData_throws_iff_length_ne {sizeofT : Nat} (s : State) (data : List (Elem sizeofT)) :
    ((∃ s1, TensorT.setData s data = Outcome.thrown sizeMismatch s1) ↔
        data.length ≠ s.self.size) ∧
    (∀ what s1, TensorT.setData s data = Outcome.thrown what s1 →
        what = sizeMismatch ∧ data.length ≠ s.self.size) ∧
    (data.length = s.self.size →
        (∀ what s1, TensorT.setData s data ≠ Outcome.thrown what s1) ∧
        TensorT.setData s data = Tensor.setRawData s (vectorBytes data)) := by
  unfold TensorT.setData Tensor.size
  by_cases h : data.length = s.self.mSize
  · simp [h, setRawData_ne_thrown]
  · simp [h]

/-- Witness for C1: on a 4-element tensor a 4-element input is passed on to
`setRawData`, and a 3-element input throws. -/
theorem setData_throws_iff_length_ne_witness :
    TensorT.setData ⟨sampleTensor TensorTypes.eDevice 4 4 (mappedPtr 31 16), zeroWorld⟩
        [elem4 1, elem4 2, elem4 3, elem4 4] =
      Tensor.setRawData ⟨sampleTensor TensorTypes.eDevice 4 4 (mappedPtr 31 16), zeroWorld⟩
        (vectorBytes [elem4 1, elem4 2, elem4 3, elem4 4]) ∧
    ∃ s1, TensorT.setData ⟨sampleTensor TensorTypes.eDevice 4 4 (mappedPtr 31 16), zeroWorld⟩
        [elem4 1, elem4 2, elem4 3] = Outcome.thrown sizeMismatch s1 :=
  ⟨((setData_throws_iff_length_ne
      ⟨sampleTensor TensorTypes.eDevice 4 4 (mappedPtr 31 16), zeroWorld⟩
      [elem4 1, elem4 2, elem4 3, elem4 4]).2.2 (by decide)).2,
   (setData_throws_iff_length_ne
      ⟨sampleTensor TensorTypes.eDevice 4 4 (mappedPtr 31 16), zeroWorld⟩
      [elem4 1, elem4 2, elem4 3]).1.2 (by decide)⟩

/-- C2: a `setData` call whose input length differs from the element count
throws the size-mismatch error in a state equal to the one it was called in:
element count, per-element byte width, tier tag, data-type tag, raw pointer
and every byte of host-visible memory are as before. -/
theorem setData_mismatch_state_unchanged {sizeofT : Nat} (s : State)
    (data : List (Elem sizeofT)) (h : data.length ≠ s.self.size) :
    ∃ s1, TensorT.setData s data = Outcome.thrown sizeMismatch s1 ∧
      s1 = s ∧
      s1.self.size = s.self.size ∧
      s1.self.dataTypeMemorySize = s.self.dataTypeMemorySize ∧
      s1.self.mTensorType = s.self.mTensorType ∧
      s1.self.dataType = s.self.dataType ∧
      s1.self.rawData = s.self.rawData ∧
      (∀ memory offset, s1.world.bytes memory offset = s.world.bytes memory offset) := by
  refine ⟨s, ?_, rfl, rfl, rfl, rfl, rfl, rfl, fun _ _ => rfl⟩
  unfold TensorT.setData
  exact if_pos h

/-- Witness for C2: a 3-element input on a 4-element tensor. -/
theorem setData_mismatch_state_unchanged_witness :
    ∃ s1, TensorT.setData ⟨sampleTensor TensorTypes.eDevice 4 4 (mappedPtr 31 16), zeroWorld⟩
        [elem4 1, elem4 2, elem4 3] = Outcome.thrown sizeMismatch s1 ∧
      s1 = ⟨sampleTensor TensorTypes.eDevice 4 4 (mappedPtr 31 16), zeroWorld⟩ :=
  have h := setData_mismatch_state_unchanged
    ⟨sampleTensor TensorTypes.eDevice 4 4 (mappedPtr 31 16), zeroWorld⟩
    [elem4 1, elem4 2, elem4 3] (by decide)
  h.elim fun s1 hs => ⟨s1, hs.1, hs.2.1⟩

/-- C7: on a Storage-tier tensor `rawMapData` returns in the state it was
called in: no memory is mapped (the record of mappings is unchanged, so
neither the primary nor the staging memory is mapped), the raw pointer and
every other field of the tensor are as before, and so is host memory. -/
theorem rawMapData_storage_unchanged (s : State)
    (h : s.self.mTensorType = TensorTypes.eStorage) :
    ∃ s1, Tensor.rawMapData s = Outcome.returned s1 ∧
      s1 = s ∧
      s1.self = s.self ∧
      s1.self.rawData = s.self.rawData ∧
      s1.world.mapped = s.world.mapped := by
  refine ⟨s, ?_, rfl, rfl, rfl, rfl⟩
  unfold Tensor.rawMapData
  simp [h]

/-- Witness for C7: a Storage-tier tensor whose raw pointer is null. -/
theorem rawMapData_storage_unchanged_witness :
    ∃ s1, Tensor.rawMapData ⟨sampleTensor TensorTypes.eStorage 4 4 nullptr, zeroWorld⟩ =
        Outcome.returned s1 ∧
      s1.self.rawData = nullptr ∧ s1.world.mapped = [] :=
  have h := rawMapData_storage_unchanged
    ⟨sampleTensor TensorTypes.eStorage 4 4 nullptr, zeroWorld⟩ rfl
  h.elim fun s1 hs => ⟨s1, hs.1, hs.2.2.2.1, hs.2.2.2.2⟩

/-- C8: with a non-null device, `rawMapData` maps the host-visible allocation
selected by the tier. On a Device-tier tensor with staging memory `staging`
the raw pointer becomes the start of a mapping of `staging` at offset 0 of
length `memorySize()`, this is the only mapping made, and the pointer does not
refer to a primary memory different from `staging`. On a Host-tier tensor with
primary memory `primary` the raw pointer becomes the start of a mapping of
`primary` at offset 0 of length `memorySize()`, the only mapping made. -/
theorem rawMapData_selects_by_tier (s : State) (device : Nat)
    (hd : s.self.mDevice = some device) :
    (∀ staging, s.self.mTensorType = TensorTypes.eDevice →
      s.self.mStagingMemory = some staging →
      ∃ s1, Tensor.rawMapData s = Outcome.returned s1 ∧
        s1.self.rawData = ⟨some ⟨staging, 0, s.self.memorySize⟩, 0⟩ ∧
        s1.world.mapped = s.world.mapped ++ [(device, ⟨staging, 0, s.self.memorySize⟩)] ∧
        (∀ primary, s.self.mPrimaryMemory = some primary → primary ≠ staging →
          ∀ m, s1.self.rawData.region = some m → m.memory ≠ primary)) ∧
    (∀ primary, s.self.mTensorType = TensorTypes.eHost →
      s.self.mPrimaryMemory = some primary →
      ∃ s1, Tensor.rawMapData s = Outcome.returned s1 ∧
        s1.self.rawData = ⟨some ⟨primary, 0, s.self.memorySize⟩, 0⟩ ∧
        s1.world.mapped = s.world.mapped ++ [(device, ⟨primary, 0, s.self.memorySize⟩)]) := by
  constructor
  · intro staging htier hmem
    refine ⟨⟨{ s.self with mRawData := ⟨some ⟨staging, 0, s.self.memorySize⟩, 0⟩ },
      { s.world with
        mapped := s.world.mapped ++ [(device, ⟨staging, 0, s.self.memorySize⟩)] }⟩,
      ?_, rfl, rfl, ?_⟩
    · unfold Tensor.rawMapData
      simp [htier, hd, hmem, mapMemory]
    · intro primary _ hne m hm
      simp only [Tensor.rawData, Option.some.injEq] at hm
      rw [← hm]
      exact fun h => hne h.symm
  · intro primary htier hmem
    refine ⟨⟨{ s.self with mRawData := ⟨some ⟨primary, 0, s.self.memorySize⟩, 0⟩ },
      { s.world with
        mapped := s.world.mapped ++ [(device, ⟨primary, 0, s.self.memorySize⟩)] }⟩,
      ?_, rfl, rfl⟩
    unfold Tensor.rawMapData
    simp [htier, hd, hmem, mapMemory]

/-- Witness for C8: a Device-tier tensor gets a pointer into its staging
memory 31, not its primary memory 30; a Host-tier tensor gets a pointer into
its primary memory 30. -/
theorem rawMapData_selects_by_tier_witness :
    (∃ s1, Tensor.rawMapData ⟨sampleTensor TensorTypes.eDevice 4 4 nullptr, zeroWorld⟩ =
        Outcome.returned s1 ∧
      s1.self.rawData = ⟨some ⟨31, 0, 16⟩, 0⟩ ∧
      s1.world.mapped = [(1, ⟨31, 0, 16⟩)]) ∧
    (∃ s1, Tensor.rawMapData ⟨sampleTensor TensorTypes.eHost 4 4 nullptr, zeroWorld⟩ =
        Outcome.returned s1 ∧
      s1.self.rawData = ⟨some ⟨30, 0, 16⟩, 0⟩ ∧
      s1.world.mapped = [(1, ⟨30, 0, 16⟩)]) :=
  ⟨((rawMapData_selects_by_tier
      ⟨sampleTensor TensorTypes.eDevice 4 4 nullptr, zeroWorld⟩ 1 rfl).1 31 rfl rfl).elim
      fun s1 hs => ⟨s1, hs.1, hs.2.1, hs.2.2.1⟩,
   ((rawMapData_selects_by_tier
      ⟨sampleTensor TensorTypes.eHost 4 4 nullptr, zeroWorld⟩ 1 rfl).2 30 rfl rfl).elim
      fun s1 hs => ⟨s1, hs.1, hs.2.1, hs.2.2⟩⟩

theorem VoidPtr.valid_iff (p : VoidPtr) (n : Nat) :
    p.valid n = true ↔ ∃ m, p.region = some m ∧ 0 ≤ p.disp ∧ p.disp + (n : Int) ≤ (m.size : Int) := by
  unfold VoidPtr.valid
  cases p.region <;> simp

theorem range_map_getD_eq_take_drop (l : List Byte) (a n : Nat) (h : a + n ≤ l.length) :
    (List.range n).map (fun k => l.getD (a + k) 0) = (l.drop a).take n := by
  apply List.ext_getElem
  · simp; omega
  · intro k h1 h2
    simp at h1
    simp [List.getD, List.getElem?_eq_getElem (show a + k < l.length by omega)]

theorem peek_poke (w : World) (p : VoidPtr) (src : List Byte) (n k : Nat)
    (hp : p.region.isSome = true) (hk : k < n) :
    (w.poke p src n).peek p k = src.getD k 0 := by
  unfold World.poke World.peek
  cases hr : p.region with
  | none => simp [hr] at hp
  | some m =>
    have h1 : m.offset + p.disp.toNat ≤ m.offset + p.disp.toNat + k := Nat.le_add_right _ _
    have h2 : m.offset + p.disp.toNat + k < m.offset + p.disp.toNat + n :=
      Nat.add_lt_add_left hk _
    simp [h2]

theorem readBytes_poke (w : World) (p : VoidPtr) (src : List Byte) (n : Nat)
    (hp : p.region.isSome = true) (hn : n ≤ src.length) :
    (w.poke p src n).readBytes p n = src.take n := by
  unfold World.readBytes
  have h1 : (List.range n).map ((w.poke p src n).peek p) =
      (List.range n).map (fun k => src.getD (0 + k) 0) := by
    apply List.map_congr_left
    intro k hk
    rw [peek_poke w p src n k hp (List.mem_range.mp hk), Nat.zero_add]
  rw [h1, range_map_getD_eq_take_drop src 0 n (by omega)]
  rfl

/-- C3: on a Host-tier or Device-tier tensor whose raw pointer is valid for
`memorySize()` bytes, `setRawData` with a source of at least `memorySize()`
bytes returns, leaves the tensor object as it was, and the `memorySize()`
bytes then read through `rawData()` are the first `memorySize()` bytes of the
source. -/
theorem setRawData_readback (s : State) (src : List Byte)
    (_htier : s.self.mTensorType = TensorTypes.eHost ∨
      s.self.mTensorType = TensorTypes.eDevice)
    (hmap : s.self.rawData.valid s.self.memorySize = true)
    (hsrc : s.self.memorySize ≤ src.length) :
    ∃ s1, Tensor.setRawData s src = Outcome.returned s1 ∧
      s1.self = s.self ∧
      s1.world.readBytes s1.self.rawData s1.self.memorySize =
        src.take s.self.memorySize := by
  have hreg : s.self.mRawData.region.isSome = true := by
    obtain ⟨m, hm, _⟩ := (VoidPtr.valid_iff _ _).mp hmap
    rw [show s.self.mRawData = s.self.rawData from rfl, hm]
    rfl
  refine ⟨⟨s.self, s.world.poke s.self.mRawData src s.self.memorySize⟩, ?_, rfl, ?_⟩
  · have hc : s.self.mRawData.valid s.self.memorySize = true ∧
        s.self.memorySize ≤ src.length := ⟨hmap, hsrc⟩
    unfold Tensor.setRawData memcpy
    rw [if_pos hc]
  · exact readBytes_poke s.world s.self.mRawData src s.self.memorySize hreg hsrc

/-- Witness for C3: a Host-tier tensor of 2 elements of 2 bytes and a source
of 5 bytes; the 4 bytes read back are the first 4 of the source. -/
theorem setRawData_readback_witness :
    ∃ s1, Tensor.setRawData ⟨sampleTensor TensorTypes.eHost 2 2 (mappedPtr 30 4), zeroWorld⟩
        [1, 2, 3, 4, 5] = Outcome.returned s1 ∧
      s1.self = sampleTensor TensorTypes.eHost 2 2 (mappedPtr 30 4) ∧
      s1.world.readBytes s1.self.rawData s1.self.memorySize = [1, 2, 3, 4] :=
  setRawData_readback ⟨sampleTensor TensorTypes.eHost 2 2 (mappedPtr 30 4), zeroWorld⟩
    [1, 2, 3, 4, 5] (Or.inl rfl) (by decide) (by decide)

theorem Elem.eq_of_bytes_eq {n : Nat} (a b : Elem n) (h : a.bytes = b.bytes) : a = b := by
  cases a
  cases b
  simp only [Elem.mk.injEq]
  exact h

theorem vectorBytes_cons {n : Nat} (x : Elem n) (xs : List (Elem n)) :
    vectorBytes (x :: xs) = x.bytes ++ vectorBytes xs := by
  simp [vectorBytes]

theorem vectorBytes_length {n : Nat} (data : List (Elem n)) :
    (vectorBytes data).length = data.length * n := by
  induction data with
  | nil => simp [vectorBytes]
  | cons x xs ih =>
    rw [vectorBytes_cons, List.length_append, ih, x.size_eq, List.length_cons]
    ring

theorem vectorBytes_block {n : Nat} (data : List (Elem n)) (i : Nat) (h : i < data.length) :
    ((vectorBytes data).drop (i * n)).take n = (data.get ⟨i, h⟩).bytes := by
  induction data generalizing i with
  | nil => simp at h
  | cons x xs ih =>
    rw [vectorBytes_cons]
    cases i with
    | zero =>
      simp only [Nat.zero_mul, List.drop_zero, List.get_eq_getElem, List.getElem_cons_zero]
      rw [List.take_append_of_le_length (by rw [x.size_eq])]
      rw [List.take_of_length_le (by rw [x.size_eq])]
    | succ j =>
      have hj : j < xs.length := by simpa using h
      have hd : (j + 1) * n = x.bytes.length + j * n := by rw [x.size_eq]; ring
      rw [hd, List.drop_append]
      simpa using ih j hj

theorem peek_add_mul (w : World) (p : VoidPtr) (i n k : Nat) (h0 : 0 ≤ p.disp) :
    w.peek (p.add ((i : Int) * (n : Int))) k = w.peek p (i * n + k) := by
  unfold World.peek VoidPtr.add
  cases p.region with
  | none => rfl
  | some m =>
    simp only
    have h1 : (p.disp + (i : Int) * (n : Int)).toNat = p.disp.toNat + i * n := by
      have h2 : (i : Int) * (n : Int) = ((i * n : Nat) : Int) := by push_cast; rfl
      rw [h2]
      omega
    simp only [h1, Nat.add_assoc]

theorem load_poke_block {n : Nat} (w : World) (p : VoidPtr) (data : List (Elem n)) (i : Nat)
    (hreg : p.region.isSome = true) (h0 : 0 ≤ p.disp) (h : i < data.length) :
    (w.poke p (vectorBytes data) (data.length * n)).load (p.add ((i : Int) * (n : Int))) n =
      data.get ⟨i, h⟩ := by
  apply Elem.eq_of_bytes_eq
  have hin : i * n + n ≤ data.length * n := by
    calc i * n + n = (i + 1) * n := by ring
      _ ≤ data.length * n := Nat.mul_le_mul_right n h
  show (w.poke p (vectorBytes data) (data.length * n)).readBytes
    (p.add ((i : Int) * (n : Int))) n = _
  unfold World.readBytes
  have h1 : (List.range n).map ((w.poke p (vectorBytes data) (data.length * n)).peek
        (p.add ((i : Int) * (n : Int)))) =
      (List.range n).map (fun k => (vectorBytes data).getD (i * n + k) 0) := by
    apply List.map_congr_left
    intro k hk
    have hk1 : k < n := List.mem_range.mp hk
    rw [peek_add_mul _ p i n k h0, peek_poke w p _ _ _ hreg (by omega)]
  rw [h1, range_map_getD_eq_take_drop _ _ _ (by rw [vectorBytes_length]; exact hin)]
  exact vectorBytes_block data i h

theorem setData_returned {n : Nat} (s : State) (data : List (Elem n))
    (hlen : data.length = s.self.mSize)
    (hv : s.self.mRawData.valid s.self.memorySize = true)
    (hs : s.self.memorySize ≤ (vectorBytes data).length) :
    TensorT.setData s data = Outcome.returned
      ⟨s.self, s.world.poke s.self.mRawData (vectorBytes data) s.self.memorySize⟩ := by
  have hne : ¬ data.length ≠ s.self.mSize := fun h => h hlen
  have hc : s.self.mRawData.valid s.self.memorySize = true ∧
      s.self.memorySize ≤ (vectorBytes data).length := ⟨hv, hs⟩
  unfold TensorT.setData Tensor.setRawData memcpy
  rw [if_neg hne, if_pos hc]

/-- C4, as amended: on a typed tensor of Host or Device tier whose per-element
width is `sizeof(T)`, whose `size() * sizeof(T)` is below `2 ^ 32` and whose
raw pointer is valid for `memorySize()` bytes, `setData` with an input of
`size()` elements returns, leaves the tensor object as it was, and `vector()`
called next returns the input. -/
theorem setData_vector_roundtrip {sizeofT : Nat} (s : State) (data : List (Elem sizeofT))
    (_htier : s.self.mTensorType = TensorTypes.eHost ∨
      s.self.mTensorType = TensorTypes.eDevice)
    (hlen : data.length = s.self.size)
    (hwidth : s.self.dataTypeMemorySize = sizeofT)
    (hfit : s.self.size * sizeofT < uint32Mod)
    (hmap : s.self.rawData.valid s.self.memorySize = true) :
    ∃ s1, TensorT.setData s data = Outcome.returned s1 ∧
      s1.self = s.self ∧
      TensorT.vector sizeofT s1.self s1.world = some data := by
  have hms : s.self.memorySize = data.length * sizeofT := by
    rw [memorySize_eq_mod, hwidth, Nat.mod_eq_of_lt hfit, hlen]
  obtain ⟨m, hm, h0, _⟩ := (VoidPtr.valid_iff _ _).mp hmap
  have hreg : s.self.mRawData.region.isSome = true := by
    rw [show s.self.mRawData = s.self.rawData from rfl, hm]
    rfl
  have hmap1 : s.self.mRawData.valid (data.length * sizeofT) = true := by
    rw [← hms]
    exact hmap
  refine ⟨⟨s.self, s.world.poke s.self.mRawData (vectorBytes data) (data.length * sizeofT)⟩,
    ?_, rfl, ?_⟩
  · rw [setData_returned s data hlen hmap (by rw [vectorBytes_length, hms]), hms]
  · unfold TensorT.vector
    rw [show s.self.size = data.length from hlen.symm, if_pos hmap1]
    congr 1
    apply List.ext_getElem
    · rw [List.length_map, List.length_range]
    · intro i h1 h2
      rw [List.getElem_map, List.getElem_range]
      exact load_poke_block s.world s.self.mRawData data i hreg h0 h2

/-- Witness for C4 as amended: two 4-byte elements on a Host-tier tensor. -/
theorem setData_vector_roundtrip_witness :
    ∃ s1, TensorT.setData ⟨sampleTensor TensorTypes.eHost 2 4 (mappedPtr 30 8), zeroWorld⟩
        [elem4 7, elem4 9] = Outcome.returned s1 ∧
      s1.self = sampleTensor TensorTypes.eHost 2 4 (mappedPtr 30 8) ∧
      TensorT.vector 4 s1.self s1.world = some [elem4 7, elem4 9] :=
  setData_vector_roundtrip ⟨sampleTensor TensorTypes.eHost 2 4 (mappedPtr 30 8), zeroWorld⟩
    [elem4 7, elem4 9] (Or.inl rfl) rfl rfl (by decide) (by decide)

theorem poke_zero (w : World) (p : VoidPtr) (src : List Byte) : w.poke p src 0 = w := by
  unfold World.poke
  cases p.region with
  | none => rfl
  | some m =>
    cases w with
    | mk mapped bytes =>
      simp only [World.mk.injEq, true_and]
      funext mem off
      have h : ¬ (mem = m.memory ∧ m.offset + p.disp.toNat ≤ off ∧
          off < m.offset + p.disp.toNat + 0) := by omega
      exact if_neg h

theorem setData_returned_of_memorySize_zero {n : Nat} (s : State) (data : List (Elem n))
    (hlen : data.length = s.self.mSize)
    (hms : s.self.memorySize = 0)
    (hv : s.self.mRawData.valid 0 = true) :
    TensorT.setData s data = Outcome.returned s := by
  rw [setData_returned s data hlen (by rw [hms]; exact hv) (by rw [hms]; exact Nat.zero_le _),
    hms, poke_zero]

theorem vector_ne_of_first {n : Nat} (t : Tensor) (w : World) (data : List (Elem n))
    (e : Elem n) (hsize : 0 < t.size) (hd : data[0]? = some e)
    (hne : w.load (t.mRawData.add (((0 : Nat) : Int) * (n : Int))) n ≠ e) :
    TensorT.vector n t w ≠ some data := by
  intro h
  unfold TensorT.vector at h
  by_cases hv : t.mRawData.valid (t.size * n) = true
  · rw [if_pos hv] at h
    have h1 := congrArg (fun l : List (Elem n) => l[0]?) (Option.some.inj h)
    simp only [List.getElem?_map, List.getElem?_range hsize, Option.map_some', hd,
      Option.some.injEq] at h1
    exact hne h1
  · rw [if_neg hv] at h
    cases h

/-- Counterexample to C4 as stated: a Host-tier typed tensor of `2 ^ 30`
elements of 4 bytes, so that `memorySize()` is 0, and an input of `2 ^ 30`
elements with all bytes 1. `setData` returns after copying no byte. With the
raw pointer mapping `memorySize()` bytes, `vector()` reads outside the mapping;
with it mapping `2 ^ 32` bytes of zeroed memory, `vector()` returns a result
that differs from the input. -/
theorem setData_vector_overflow_counterexample :
    (List.replicate 1073741824 (elem4 1)).length =
      (sampleTensor TensorTypes.eHost 1073741824 4 (mappedPtr 30 0)).size ∧
    (sampleTensor TensorTypes.eHost 1073741824 4 (mappedPtr 30 0)).dataTypeMemorySize = 4 ∧
    (∃ s1, TensorT.setData
        ⟨sampleTensor TensorTypes.eHost 1073741824 4 (mappedPtr 30 0), zeroWorld⟩
        (List.replicate 1073741824 (elem4 1)) = Outcome.returned s1 ∧
      TensorT.vector 4 s1.self s1.world = none ∧
      TensorT.vector 4 s1.self s1.world ≠ some (List.replicate 1073741824 (elem4 1))) ∧
    (∃ s1, TensorT.setData
        ⟨sampleTensor TensorTypes.eHost 1073741824 4 (mappedPtr 30 4294967296), zeroWorld⟩
        (List.replicate 1073741824 (elem4 1)) = Outcome.returned s1 ∧
      TensorT.vector 4 s1.self s1.world ≠ some (List.replicate 1073741824 (elem4 1))) := by
  have hlen : ∀ raw, (List.replicate 1073741824 (elem4 1)).length =
      (State.mk (sampleTensor TensorTypes.eHost 1073741824 4 raw) zeroWorld).self.mSize :=
    fun _ => List.length_replicate _ _
  have hfirst : (List.replicate 1073741824 (elem4 1))[0]? = some (elem4 1) :=
    List.getElem?_replicate_of_lt (by decide)
  refine ⟨List.length_replicate _ _, rfl,
    ⟨_, setData_returned_of_memorySize_zero _ _ (hlen _) (by decide) (by decide), ?_, ?_⟩,
    ⟨_, setData_returned_of_memorySize_zero _ _ (hlen _) (by decide) (by decide), ?_⟩⟩
  · show TensorT.vector 4 (sampleTensor TensorTypes.eHost 1073741824 4 (mappedPtr 30 0))
      zeroWorld = none
    decide
  · exact vector_ne_of_first _ _ _ (elem4 1) (by decide) hfirst (by decide)
  · exact vector_ne_of_first _ _ _ (elem4 1) (by decide) hfirst (by decide)

theorem valid_block (p : VoidPtr) (i n size : Nat) (hi : i < size)
    (hv : p.valid (size * n) = true) :
    (p.add ((i : Int) * (n : Int))).valid n = true := by
  obtain ⟨m, hm, h0, h1⟩ := (VoidPtr.valid_iff _ _).mp hv
  apply (VoidPtr.valid_iff _ _).mpr
  refine ⟨m, hm, ?_, ?_⟩
  · show 0 ≤ p.disp + (i : Int) * (n : Int)
    positivity
  · show p.disp + (i : Int) * (n : Int) + (n : Int) ≤ (m.size : Int)
    have h2 : (i + 1) * n ≤ size * n := Nat.mul_le_mul_right n hi
    have h3 : (i + 1) * n = i * n + n := by ring
    push_cast at *
    omega

/-- Counterexample to C6 as stated: on a 4-element tensor of 4-byte elements
whose data is the 16 mapped bytes, `operator[]` at index 4 (equal to `size()`)
and at index -1 is not rejected; it yields the locations 16 bytes past and
4 bytes before the raw pointer, both outside the data of the tensor. -/
theorem operatorIndex_unchecked_counterexample :
    (sampleTensor TensorTypes.eDevice 4 4 (mappedPtr 31 16)).size = 4 ∧
    TensorT.operatorIndex 4 (sampleTensor TensorTypes.eDevice 4 4 (mappedPtr 31 16)) 4 =
      ⟨some ⟨31, 0, 16⟩, 16⟩ ∧
    (TensorT.operatorIndex 4
      (sampleTensor TensorTypes.eDevice 4 4 (mappedPtr 31 16)) 4).valid 4 = false ∧
    TensorT.operatorIndex 4 (sampleTensor TensorTypes.eDevice 4 4 (mappedPtr 31 16)) (-1) =
      ⟨some ⟨31, 0, 16⟩, -4⟩ ∧
    (TensorT.operatorIndex 4
      (sampleTensor TensorTypes.eDevice 4 4 (mappedPtr 31 16)) (-1)).valid 4 = false := by
  decide

/-- C6, as amended: `operator[]` makes no bounds check. For every index it
yields the location `index * sizeof(T)` bytes from the raw pointer. For every
index in `[0, size())` on a tensor whose `vector()` is defined, that location
is inside the mapped data and holds the element at that position of
`vector()`. -/
theorem operatorIndex_in_range (sizeofT : Nat) (t : Tensor) (w : World) (index : Int) :
    TensorT.operatorIndex sizeofT t index = t.rawData.add (index * (sizeofT : Int)) ∧
    (0 ≤ index → index < (t.size : Int) →
      ∀ v, TensorT.vector sizeofT t w = some v →
        (TensorT.operatorIndex sizeofT t index).valid sizeofT = true ∧
        v[index.toNat]? = some (w.load (TensorT.operatorIndex sizeofT t index) sizeofT)) := by
  refine ⟨rfl, ?_⟩
  intro h0 h1 v hv
  obtain ⟨i, rfl⟩ := Int.eq_ofNat_of_zero_le h0
  have hi : i < t.size := by omega
  unfold TensorT.vector at hv
  by_cases hval : t.mRawData.valid (t.size * sizeofT) = true
  · rw [if_pos hval] at hv
    have hv1 := Option.some.inj hv
    refine ⟨valid_block t.mRawData i sizeofT t.size hi hval, ?_⟩
    rw [← hv1, Int.toNat_ofNat, List.getElem?_map, List.getElem?_range hi]
    rfl
  · rw [if_neg hval] at hv
    cases hv

/-- Witness for C6 as amended: index 1 of a 2-element tensor over zeroed
memory. -/
theorem operatorIndex_in_range_witness :
    (TensorT.operatorIndex 4
      (sampleTensor TensorTypes.eHost 2 4 (mappedPtr 30 8)) 1).valid 4 = true ∧
    [elem4 0, elem4 0][(1 : Int).toNat]? =
      some (zeroWorld.load (TensorT.operatorIndex 4
        (sampleTensor TensorTypes.eHost 2 4 (mappedPtr 30 8)) 1) 4) :=
  (operatorIndex_in_range 4 (sampleTensor TensorTypes.eHost 2 4 (mappedPtr 30 8))
    zeroWorld 1).2 (by decide) (by decide) [elem4 0, elem4 0] (by decide)

theorem readBytes_add (w : World) (p : VoidPtr) (i n m : Nat) (h0 : 0 ≤ p.disp) :
    w.readBytes p (i * n + m) =
      w.readBytes p (i * n) ++ w.readBytes (p.add ((i : Int) * (n : Int))) m := by
  unfold World.readBytes
  rw [List.range_add, List.map_append, List.map_map]
  congr 1
  apply List.map_congr_left
  intro k _
  exact (peek_add_mul w p i n k h0).symm

theorem vectorBytes_loads (w : World) (p : VoidPtr) (n count : Nat) (h0 : 0 ≤ p.disp) :
    vectorBytes ((List.range count).map fun (i : Nat) =>
      w.load (p.add ((i : Int) * (n : Int))) n) = w.readBytes p (count * n) := by
  induction count with
  | zero => simp [vectorBytes, World.readBytes]
  | succ c ih =>
    have hc : (c + 1) * n = c * n + n := by ring
    rw [List.range_succ, List.map_append, hc, readBytes_add w p c n n h0, ← ih]
    simp [vectorBytes, World.load]

/-- C10: for every tensor and every element width `sizeof(T)`, the typed view
`vector<T>()` is defined exactly when the `size() * sizeof(T)` bytes at the raw
pointer are readable; its result then has `size()` elements whose bytes are
those `size() * sizeof(T)` bytes, and it does not depend on the declared
per-element width. When `size() * dataTypeMemorySize()` is below `2 ^ 32`,
these bytes lie within `memorySize()` exactly when `size()` is 0 or
`sizeof(T)` is at most `dataTypeMemorySize()`; so on a raw pointer that maps
exactly `memorySize()` bytes the view is defined exactly in that case. -/
theorem vector_reads_size_times_sizeof (sizeofT : Nat) (t : Tensor) (w : World) :
    ((Tensor.vector sizeofT t w).isSome = true ↔
        t.rawData.valid (t.size * sizeofT) = true) ∧
    (∀ v, Tensor.vector sizeofT t w = some v →
        v.length = t.size ∧
        vectorBytes v = w.readBytes t.rawData (t.size * sizeofT)) ∧
    (∀ width, Tensor.vector sizeofT { t with mDataTypeMemorySize := width } w =
        Tensor.vector sizeofT t w) ∧
    (t.size * t.dataTypeMemorySize < uint32Mod →
      ((t.size * sizeofT ≤ t.memorySize ↔
          (t.size = 0 ∨ sizeofT ≤ t.dataTypeMemorySize)) ∧
        (∀ memory offset, t.rawData = ⟨some ⟨memory, offset, t.memorySize⟩, 0⟩ →
          ((Tensor.vector sizeofT t w).isSome = true ↔
            (t.size = 0 ∨ sizeofT ≤ t.dataTypeMemorySize))))) := by
  have hiff : ∀ a b c : Nat, a * b ≤ a * c ↔ (a = 0 ∨ b ≤ c) := by
    intro a b c
    rcases Nat.eq_zero_or_pos a with h | h
    · simp [h]
    · constructor
      · exact fun h1 => Or.inr (Nat.le_of_mul_le_mul_left h1 h)
      · rintro (h1 | h1)
        · omega
        · exact Nat.mul_le_mul_left a h1
  have hsome : (Tensor.vector sizeofT t w).isSome = true ↔
      t.rawData.valid (t.size * sizeofT) = true := by
    unfold Tensor.vector Tensor.rawData
    by_cases hv : t.mRawData.valid (t.size * sizeofT) = true
    · simp [hv]
    · simp [hv]
  refine ⟨hsome, ?_, fun _ => rfl, ?_⟩
  · intro v hv
    have hval : t.mRawData.valid (t.size * sizeofT) = true := by
      rw [← show t.rawData = t.mRawData from rfl]
      exact hsome.mp (by rw [hv]; rfl)
    unfold Tensor.vector at hv
    rw [if_pos hval] at hv
    obtain ⟨m, _, h0, _⟩ := (VoidPtr.valid_iff _ _).mp hval
    rw [← Option.some.inj hv]
    exact ⟨by rw [List.length_map, List.length_range],
      vectorBytes_loads w t.mRawData sizeofT t.size h0⟩
  · intro hfit
    have hms : t.memorySize = t.size * t.dataTypeMemorySize := by
      rw [memorySize_eq_mod, Nat.mod_eq_of_lt hfit]
    refine ⟨by rw [hms]; exact hiff _ _ _, ?_⟩
    intro memory offset hp
    rw [hsome, VoidPtr.valid_iff, ← hiff, ← hms, hp]
    constructor
    · rintro ⟨m, hm, _, h2⟩
      simp only [Option.some.injEq] at hm
      rw [← hm] at h2
      simp only [zero_add] at h2
      exact_mod_cast h2
    · intro h
      exact ⟨_, rfl, le_refl _, by simp only [zero_add]; exact_mod_cast h⟩

/-- Witness for C10: on a tensor of 2 elements of declared width 4 whose raw
pointer maps its 8 bytes, the view with `sizeof(T) = 2` is defined and the
view with `sizeof(T) = 8` is not. -/
theorem vector_reads_size_times_sizeof_witness :
    (Tensor.vector 2 (sampleTensor TensorTypes.eHost 2 4 (mappedPtr 30 8)) zeroWorld).isSome
      = true ∧
    ¬ (Tensor.vector 8 (sampleTensor TensorTypes.eHost 2 4 (mappedPtr 30 8)) zeroWorld).isSome
      = true :=
  ⟨(((vector_reads_size_times_sizeof 2 (sampleTensor TensorTypes.eHost 2 4 (mappedPtr 30 8))
      zeroWorld).2.2.2 (by decide)).2 30 0 rfl).mpr (by decide),
   fun h => absurd
    ((((vector_reads_size_times_sizeof 8 (sampleTensor TensorTypes.eHost 2 4 (mappedPtr 30 8))
      zeroWorld).2.2.2 (by decide)).2 30 0 rfl).mp h) (by decide)⟩

theorem clear_managed (owners : Owners) (m : Manager) (c : Category) :
    (m.clear owners).managed c = (m.managed c).filter fun p => !p.expired owners := by
  cases c <;> rfl

theorem not_expired_iff (owners : Owners) (p : WeakPtr) :
    (!p.expired owners) = true ↔ owners p.object ≠ 0 := by
  simp [WeakPtr.expired]

theorem length_filter_releaseAll (owners : Owners) (r : Nat) (hr : owners r ≠ 0)
    (l : List WeakPtr) :
    (l.filter fun p => !p.expired (releaseAll owners r)).length + l.count ⟨r⟩ =
      (l.filter fun p => !p.expired owners).length := by
  induction l with
  | nil => rfl
  | cons p l ih =>
    by_cases hp : p.object = r
    · have hpe : p = ⟨r⟩ := by cases p; simpa using hp
      subst hpe
      have h1 : (WeakPtr.mk r).expired (releaseAll owners r) = true := by
        simp [WeakPtr.expired, releaseAll]
      have h2 : (WeakPtr.mk r).expired owners = false := by
        simp [WeakPtr.expired, hr]
      simp only [List.filter_cons, h1, h2, Bool.not_true, Bool.not_false, if_true,
        Bool.false_eq_true, if_false, List.count_cons_self, List.length_cons]
      omega
    · have hpe : p ≠ ⟨r⟩ := fun h => hp (by rw [h])
      have h1 : p.expired (releaseAll owners r) = p.expired owners := by
        simp [WeakPtr.expired, releaseAll, hp]
      rw [List.count_cons_of_ne hpe.symm]
      simp only [List.filter_cons, h1]
      cases p.expired owners
      · simp only [Bool.not_false, if_true, List.length_cons]
        omega
      · simp only [Bool.not_true, Bool.false_eq_true, if_false]
        exact ih

/-- C9: in every registry state and for each category (tensors, sequences,
algorithms), `clear()` leaves exactly the observations whose object still has
an owner, in their original order: the new list is a sublist of the old one,
an observation is in it exactly when it was tracked and is still held, a held
observation keeps all its occurrences, and an expired one is dropped; no
other field of the registry changes. After all owning handles of a resource
that is tracked once and was held are released, `clear()` leaves one
observation fewer than it would have left before the release; so when every
other tracked resource is still held, the tracked count of that category goes
down by exactly one. -/
theorem clear_keeps_exactly_held (owners : Owners) (m : Manager) (c : Category) :
    (m.clear owners).managed c =
        (m.managed c).filter (fun p => decide (owners p.object ≠ 0)) ∧
    List.Sublist ((m.clear owners).managed c) (m.managed c) ∧
    (∀ p, p ∈ (m.clear owners).managed c ↔ (p ∈ m.managed c ∧ owners p.object ≠ 0)) ∧
    (∀ p, owners p.object ≠ 0 →
        ((m.clear owners).managed c).count p = (m.managed c).count p) ∧
    (∀ p, owners p.object = 0 → p ∉ (m.clear owners).managed c) ∧
    ((m.clear owners).mInstance = m.mInstance ∧
      (m.clear owners).mFreeInstance = m.mFreeInstance ∧
      (m.clear owners).mPhysicalDevice = m.mPhysicalDevice ∧
      (m.clear owners).mDevice = m.mDevice ∧
      (m.clear owners).mFreeDevice = m.mFreeDevice ∧
      (m.clear owners).mComputeQueueFamilyIndices = m.mComputeQueueFamilyIndices ∧
      (m.clear owners).mComputeQueues = m.mComputeQueues ∧
      (m.clear owners).mManageResources = m.mManageResources) ∧
    (∀ r, (m.managed c).count ⟨r⟩ = 1 → owners r ≠ 0 →
        ((m.clear (releaseAll owners r)).managed c).length + 1 =
          ((m.clear owners).managed c).length) ∧
    (∀ r, (m.managed c).count ⟨r⟩ = 1 →
        (∀ p ∈ m.managed c, owners p.object ≠ 0) →
        ((m.clear (releaseAll owners r)).managed c).length + 1 =
          (m.managed c).length) := by
  have hfun : (fun p : WeakPtr => !p.expired owners) =
      fun p => decide (owners p.object ≠ 0) := by
    funext p
    by_cases h : owners p.object = 0 <;> simp [WeakPtr.expired, h]
  have hrel : ∀ r, (m.managed c).count ⟨r⟩ = 1 → owners r ≠ 0 →
      ((m.clear (releaseAll owners r)).managed c).length + 1 =
        ((m.clear owners).managed c).length := by
    intro r hcount hr
    rw [clear_managed, clear_managed, ← hcount]
    exact length_filter_releaseAll owners r hr (m.managed c)
  refine ⟨?_, ?_, ?_, ?_, ?_, ⟨rfl, rfl, rfl, rfl, rfl, rfl, rfl, rfl⟩, hrel, ?_⟩
  · rw [clear_managed, hfun]
  · rw [clear_managed]
    exact List.filter_sublist _
  · intro p
    rw [clear_managed, List.mem_filter, not_expired_iff]
  · intro p hp
    rw [clear_managed]
    exact List.count_filter ((not_expired_iff owners p).mpr hp)
  · intro p hp
    rw [clear_managed, List.mem_filter, not_expired_iff]
    exact fun h => h.2 hp
  · intro r hcount hall
    have hmem : (⟨r⟩ : WeakPtr) ∈ m.managed c :=
      List.count_pos_iff.mp (by rw [hcount]; exact Nat.one_pos)
    rw [hrel r hcount (hall _ hmem), clear_managed]
    congr 1
    apply List.filter_eq_self.mpr
    intro p hp
    exact (not_expired_iff owners p).mpr (hall p hp)

/-- Witness for C9: of the tracked tensors 1, 2, 3, each held, the handles of
tensor 2 are released; `clear()` then tracks two tensors, 1 and 3. -/
theorem clear_keeps_exactly_held_witness :
    ((sampleManager.clear (releaseAll oneOwnerEach 2)).managed Category.tensors).length + 1 =
      (sampleManager.managed Category.tensors).length ∧
    (sampleManager.clear (releaseAll oneOwnerEach 2)).managed Category.tensors =
      [⟨1⟩, ⟨3⟩] :=
  ⟨(clear_keeps_exactly_held oneOwnerEach sampleManager Category.tensors).2.2.2.2.2.2.2
      2 (by decide) (by decide),
   by decide⟩

end kp
